import Mathlib

/-!
Verification development for the TrendRadar task/execution core
(`config_ui_server.py`, `trendradar/db/database.py`, `trendradar/db/models.py`).

The Python source is shallowly embedded: pure helpers become Lean functions,
the SQLite-backed store becomes explicit lists of rows, the two mutable
config files become fields of an explicit state record, and the external
collaborators (AI expander, crawler, subprocess) become outcome parameters.
-/

namespace TRN

/-! Part: JSON serialization of string lists

`models.py` stores the list-valued task fields `keywords`, `filters`,
`platforms` as JSON text via `json.dumps(lst, ensure_ascii=False)` and reads
them back via `json.loads`.  We embed the fragment of JSON that these calls
exercise: arrays of strings, `", "` as the item separator (json.dumps's
default), `"` and `\` escaped with a backslash.  (Control-character escapes
are elided; they do not affect the round-trip property.) -/

/-- Escape one character the way `json.dumps` does for the delimiter
characters: `"` and `\` get a preceding backslash, others pass through. -/
def escChar (c : Char) : List Char :=
  if c = '"' ∨ c = '\\' then ['\\', c] else [c]

/-- Escape a whole character list. -/
def escapeChars : List Char → List Char
  | [] => []
  | c :: cs => escChar c ++ escapeChars cs

/-- Encode one string as a JSON string literal (chars between quotes). -/
def encodeStr (s : String) : List Char :=
  '"' :: (escapeChars s.data ++ ['"'])

/-- Encode the items of a JSON array with `json.dumps`'s default `", "`
separator. -/
def encodeItems : List String → List Char
  | [] => []
  | [s] => encodeStr s
  | s :: s2 :: rest => encodeStr s ++ ',' :: ' ' :: encodeItems (s2 :: rest)

/-- Embeds `json.dumps(l, ensure_ascii=False)` for a list of strings. -/
def json_dumps_list (l : List String) : String :=
  ⟨'[' :: (encodeItems l ++ [']'])⟩

/-- Parse the body of a JSON string literal (after the opening quote),
returning the decoded characters and the rest of the input.  Mirrors
`json.loads`'s strict decoding: a backslash must be followed by a
recognized escape. -/
def parseStrAux : List Char → Option (List Char × List Char)
  | [] => none
  | c :: rest =>
    if c = '"' then some ([], rest)
    else if c = '\\' then
      match rest with
      | [] => none
      | d :: rest2 =>
        if d = '"' ∨ d = '\\' then
          match parseStrAux rest2 with
          | some (s, r) => some (d :: s, r)
          | none => none
        else none
    else
      match parseStrAux rest with
      | some (s, r) => some (c :: s, r)
      | none => none

/-- Skip blanks between JSON tokens (the encoder only ever emits spaces). -/
def skipSpaces : List Char → List Char
  | [] => []
  | c :: rest => if c = ' ' then skipSpaces rest else c :: rest

/-- Parse one or more comma-separated JSON string literals followed by `]`.
`fuel` bounds the number of items (the caller passes the input length). -/
def parseItems : Nat → List Char → Option (List String × List Char)
  | 0, _ => none
  | fuel + 1, input =>
    match input with
    | [] => none
    | c :: rest =>
      if c = '"' then
        match parseStrAux rest with
        | none => none
        | some (s, r) =>
          match skipSpaces r with
          | [] => none
          | c2 :: r2 =>
            if c2 = ']' then some ([⟨s⟩], r2)
            else if c2 = ',' then
              match parseItems fuel (skipSpaces r2) with
              | some (ss, r3) => some (⟨s⟩ :: ss, r3)
              | none => none
            else none
      else none

/-- Decode the items of a non-empty array (input positioned at the first
string literal). -/
def decodeItemsFrom (other : List Char) : Option (List String) :=
  match parseItems (other.length + 1) other with
  | some (ss, r) => if skipSpaces r = [] then some ss else none
  | none => none

/-- Decode what follows the opening `[` of a JSON array. -/
def decodeAfterBracket (rest : List Char) : Option (List String) :=
  match skipSpaces rest with
  | [] => none
  | c :: r2 =>
    if c = ']' then (if skipSpaces r2 = [] then some [] else none)
    else decodeItemsFrom (c :: r2)

/-- Embeds `json.loads` restricted to arrays of strings; `none` models the
`JSONDecodeError` raise. -/
def json_loads_list (str : String) : Option (List String) :=
  match skipSpaces str.data with
  | [] => none
  | c :: rest => if c = '[' then decodeAfterBracket rest else none

theorem skipSpaces_cons_of_ne (c : Char) (l : List Char) (h : ¬ c = ' ') :
    skipSpaces (c :: l) = c :: l := by
  rw [skipSpaces.eq_def]; simp [h]

theorem skipSpaces_space (l : List Char) : skipSpaces (' ' :: l) = skipSpaces l := by
  rw [skipSpaces.eq_def]; simp

theorem parseStrAux_escape (cs : List Char) (rest : List Char) :
    parseStrAux (escapeChars cs ++ '"' :: rest) = some (cs, rest) := by
  induction cs with
  | nil =>
    rw [escapeChars, List.nil_append, parseStrAux.eq_def]
    simp
  | cons c cs ih =>
    simp only [escapeChars, escChar]
    by_cases h : c = '"' ∨ c = '\\'
    · rw [if_pos h]
      simp only [List.cons_append, List.nil_append]
      rw [parseStrAux.eq_def]
      simp [h, ih]
    · rw [if_neg h]
      have h1 : ¬ (c = '"') := fun hc => h (Or.inl hc)
      have h2 : ¬ (c = '\\') := fun hc => h (Or.inr hc)
      simp only [List.cons_append, List.nil_append]
      rw [parseStrAux.eq_def]
      simp [h1, h2, ih]

theorem encodeItems_cons_shape (a : String) (l : List String) :
    ∃ t, encodeItems (a :: l) = '"' :: t := by
  cases l with
  | nil => exact ⟨escapeChars a.data ++ ['"'], rfl⟩
  | cons b m => exact ⟨(escapeChars a.data ++ ['"']) ++ ',' :: ' ' :: encodeItems (b :: m), rfl⟩

theorem skipSpaces_encodeItems (a : String) (l : List String) (r : List Char) :
    skipSpaces (encodeItems (a :: l) ++ r) = encodeItems (a :: l) ++ r := by
  obtain ⟨t, ht⟩ := encodeItems_cons_shape a l
  rw [ht, List.cons_append, skipSpaces_cons_of_ne '"' _ (by decide)]

theorem parseItems_encode (ss : List String) :
    ∀ (fuel : Nat) (rest : List Char), ss ≠ [] → ss.length ≤ fuel →
      parseItems fuel (encodeItems ss ++ ']' :: rest) = some (ss, rest) := by
  induction ss with
  | nil => intro _ _ h; exact absurd rfl h
  | cons s tl ih =>
    intro fuel rest _ hfuel
    match fuel, hfuel with
    | f + 1, hfuel =>
      cases tl with
      | nil =>
        simp only [encodeItems, encodeStr, List.cons_append, List.append_assoc,
          List.singleton_append]
        rw [parseItems.eq_def]
        have hr := skipSpaces_cons_of_ne ']' rest (by decide)
        simp [parseStrAux_escape, hr]
      | cons s2 tl2 =>
        have hf : (s2 :: tl2).length ≤ f := by
          simp only [List.length_cons] at hfuel ⊢; omega
        have hrec := ih f rest (by simp) hf
        have hcm := skipSpaces_cons_of_ne ','
          (' ' :: (encodeItems (s2 :: tl2) ++ ']' :: rest)) (by decide)
        have hsp : skipSpaces (' ' :: (encodeItems (s2 :: tl2) ++ ']' :: rest)) =
            encodeItems (s2 :: tl2) ++ ']' :: rest := by
          rw [skipSpaces_space, skipSpaces_encodeItems]
        simp only [encodeItems, encodeStr, List.cons_append, List.append_assoc,
          List.singleton_append]
        rw [parseItems.eq_def]
        simp [parseStrAux_escape, hcm, hsp, hrec]

theorem length_le_encodeItems (ss : List String) :
    ss.length ≤ (encodeItems ss).length := by
  induction ss with
  | nil => simp [encodeItems]
  | cons s tl ih =>
    cases tl with
    | nil => simp [encodeItems, encodeStr]
    | cons s2 tl2 =>
      simp only [encodeItems, encodeStr, List.length_cons, List.length_append] at ih ⊢
      omega

theorem decodeItemsFrom_encode (ss : List String) (hne : ss ≠ []) :
    decodeItemsFrom (encodeItems ss ++ [']']) = some ss := by
  have hlen : ss.length ≤ (encodeItems ss ++ [']']).length + 1 := by
    have := length_le_encodeItems ss
    simp only [List.length_append, List.length_cons, List.length_nil]
    omega
  have h := parseItems_encode ss ((encodeItems ss ++ [']']).length + 1) [] hne hlen
  unfold decodeItemsFrom
  rw [h]
  simp [skipSpaces]

theorem decodeAfterBracket_encode (ss : List String) (hne : ss ≠ []) :
    decodeAfterBracket (encodeItems ss ++ [']']) = some ss := by
  obtain ⟨a, tl, rfl⟩ : ∃ a tl, ss = a :: tl := by
    cases ss with
    | nil => exact absurd rfl hne
    | cons a tl => exact ⟨a, tl, rfl⟩
  obtain ⟨t, ht⟩ := encodeItems_cons_shape a tl
  simp only [decodeAfterBracket, ht, List.cons_append,
    skipSpaces_cons_of_ne '"' _ (by decide)]
  have hq : ¬ (('"' : Char) = ']') := by decide
  simp only [if_neg hq]
  rw [← List.cons_append, ← ht]
  exact decodeItemsFrom_encode _ hne

/-- JSON round-trip: decoding the dump of any string list recovers the list,
order and duplicates included. -/
theorem json_roundtrip (l : List String) :
    json_loads_list (json_dumps_list l) = some l := by
  cases l with
  | nil => rfl
  | cons a tl =>
    show json_loads_list ⟨'[' :: (encodeItems (a :: tl) ++ [']'])⟩ = some (a :: tl)
    have h1 := skipSpaces_cons_of_ne '[' (encodeItems (a :: tl) ++ [']']) (by decide)
    simp only [json_loads_list, h1]
    exact decodeAfterBracket_encode (a :: tl) (by simp)

/-! Part: Data model (`trendradar/db/models.py`)

`Task` keeps the list-valued fields in their stored (JSON text) form, as the
Python dataclass does; `User` mirrors the `users` table row.  Timestamps are
opaque strings supplied by the caller (the store fills them from the clock). -/

/-- A row of the `users` table. -/
structure UserRow where
  id : String
  username : String
  email : Option String
deriving DecidableEq

/-- The `Task` dataclass / a row of the `tasks` table.  `keywords`,
`filters`, `platforms` hold JSON text (the stored form). -/
structure TaskRow where
  id : String
  name : String
  user_id : String
  keywords : String
  filters : Option String
  platforms : Option String
  report_mode : String
  schedule : Option String
  expand_keywords : Bool
  status : String
  description : Option String
  created_at : Option String
  updated_at : Option String
deriving DecidableEq

/-- The native (API-side) data `Task.from_dict` consumes for a create call:
list-valued fields are native sequences. -/
structure TaskApiDict where
  name : String
  user_id : String
  keywords : List String
  filters : List String
  platforms : List String
  report_mode : String
  schedule : Option String
  expand_keywords : Bool
  description : Option String

/-- Embeds `Task.from_dict`: serializes each native sequence with `json.dumps`;
`id` defaults to the empty string, `status` to `"active"`, timestamps unset. -/
def task_from_dict (d : TaskApiDict) : TaskRow :=
  { id := ""
    name := d.name
    user_id := d.user_id
    keywords := json_dumps_list d.keywords
    filters := some (json_dumps_list d.filters)
    platforms := some (json_dumps_list d.platforms)
    report_mode := d.report_mode
    schedule := d.schedule
    expand_keywords := d.expand_keywords
    -- `data.get('status', 'active')`: the create payload passes no status
    status := "active"
    description := d.description
    created_at := none
    updated_at := none }

/-- The three native sequences `Task.to_dict` exposes (each `json.loads` of
the stored text; `none` models a null column or a decode failure). -/
structure TaskNativeLists where
  keywords : Option (List String)
  filters : Option (List String)
  platforms : Option (List String)
deriving DecidableEq

/-- The list-valued part of `Task.to_dict`: `json.loads` applied to each
stored field that is a string. -/
def task_to_dict_lists (t : TaskRow) : TaskNativeLists :=
  { keywords := json_loads_list t.keywords
    filters := match t.filters with
      | some s => json_loads_list s
      | none => none
    platforms := match t.platforms with
      | some s => json_loads_list s
      | none => none }

/-! Part: Task store (`trendradar/db/database.py`)

The SQLite tables become lists of rows; `INSERT` failure on a constraint
(`sqlite3.IntegrityError`) becomes a guarded no-op, exactly as the caught
exception leaves the table unchanged. -/

/-- A row of the `task_executions` table (wall-clock duration elided). -/
structure ExecRow where
  task_id : String
  status : String
  error_message : Option String
  html_path : Option String
deriving DecidableEq

/-- The persistent store backing `TaskDatabase`. -/
structure Store where
  users : List UserRow
  tasks : List TaskRow
deriving DecidableEq

/-- Embeds `SELECT * FROM users WHERE id = ?` (first match). -/
def get_user (users : List UserRow) (uid : String) : Option UserRow :=
  users.find? (fun u => u.id = uid)

/-- Embeds `TaskDatabase.create_user`: the INSERT succeeds only if neither the
primary key (`id`) nor the UNIQUE `username` column collides; an
`IntegrityError` is caught and ignored.  Afterwards the row is looked up by
the requested `id` — which can come back empty. -/
def create_user (users : List UserRow) (uid uname : String) (email : Option String) :
    Option UserRow × List UserRow :=
  let users' :=
    if users.any (fun u => u.id = uid ∨ u.username = uname) then users
    else users ++ [⟨uid, uname, email⟩]
  (get_user users' uid, users')

/-- Embeds `TaskDatabase.get_or_create_user`: look up by id, else create with the
id doubling as the username (the handler never passes a username). -/
def get_or_create_user (users : List UserRow) (uid : String) :
    Option UserRow × List UserRow :=
  match get_user users uid with
  | some u => (some u, users)
  | none => create_user users uid uid none

/-- Embeds `SELECT * FROM tasks WHERE id = ?` (first match). -/
def get_task (tasks : List TaskRow) (tid : String) : Option TaskRow :=
  tasks.find? (fun t => t.id = tid)

/-- Embeds `TaskDatabase.create_task`: assigns a fresh id when the task has none,
stamps both timestamps, inserts the row. -/
def create_task (st : Store) (t : TaskRow) (freshId now : String) : TaskRow × Store :=
  let t1 := if t.id = "" then { t with id := freshId } else t
  let t2 := { t1 with created_at := some now, updated_at := some now }
  (t2, { st with tasks := st.tasks ++ [t2] })

/-- The update dictionary `_handle_tasks_post` assembles: each field present
in the payload.  List-valued fields arrive as native sequences and are
serialized inside `update_task`. -/
structure TaskUpdates where
  name : Option String
  keywords : Option (List String)
  filters : Option (List String)
  platforms : Option (List String)
  report_mode : Option String
  schedule : Option String
  expand_keywords : Option Bool
  status : Option String
  description : Option String

/-- Apply one `UPDATE tasks SET ... WHERE id = ?` row merge: supplied fields
overwrite, `updated_at` is stamped. -/
def apply_updates (t : TaskRow) (u : TaskUpdates) (now : String) : TaskRow :=
  { t with
    name := u.name.getD t.name
    keywords := (u.keywords.map json_dumps_list).getD t.keywords
    filters := match u.filters with
      | some l => some (json_dumps_list l)
      | none => t.filters
    platforms := match u.platforms with
      | some l => some (json_dumps_list l)
      | none => t.platforms
    report_mode := u.report_mode.getD t.report_mode
    schedule := match u.schedule with
      | some s => some s
      | none => t.schedule
    expand_keywords := u.expand_keywords.getD t.expand_keywords
    status := u.status.getD t.status
    description := match u.description with
      | some d => some d
      | none => t.description
    updated_at := some now }

/-- Embeds `TaskDatabase.update_task`: returns whether any row was affected. -/
def update_task (st : Store) (tid : String) (u : TaskUpdates) (now : String) :
    Bool × Store :=
  (st.tasks.any (fun t => t.id = tid),
   { st with tasks := st.tasks.map (fun t => if t.id = tid then apply_updates t u now else t) })

/-! Part: `POST /api/tasks` (`ConfigRequestHandler._handle_tasks_post`) -/

/-- The JSON payload of `POST /api/tasks`; `none` models an absent key. -/
structure TasksPostPayload where
  user_id : Option String
  task_id : Option String
  name : Option String
  keywords : Option (List String)
  filters : Option (List String)
  platforms : Option (List String)
  report_mode : Option String
  schedule : Option String
  expand_keywords : Option Bool
  status : Option String
  description : Option String

/-- The responses `_handle_tasks_post` can send. -/
inductive TasksResp
  | badRequest
  | notFound
  | forbidden
  | okUpdated
  | created
  | serverError
deriving DecidableEq

/-- Python truthiness test `not value` for an optional string: true when the
key is absent or the string is empty. -/
def falsy_str : Option String → Bool
  | none => true
  | some s => s = ""

/-- The update dictionary built from the payload (`for key in [...]: if key
in payload`). -/
def updates_of (p : TasksPostPayload) : TaskUpdates :=
  ⟨p.name, p.keywords, p.filters, p.platforms, p.report_mode, p.schedule,
   p.expand_keywords, p.status, p.description⟩

/-- Embeds `_handle_tasks_post`: validate `user_id`, get-or-create the acting user,
then either update an existing task (ownership-checked) or create a new one
(`name`/`keywords` validated).  `now` and `freshId` stand for the clock and
the uuid generator. -/
def handle_tasks_post (st : Store) (p : TasksPostPayload) (now freshId : String) :
    TasksResp × Store :=
  if falsy_str p.user_id then (.badRequest, st)
  else
    let uid := p.user_id.getD ""
    let st1 : Store := { st with users := (get_or_create_user st.users uid).2 }
    if falsy_str p.task_id then
      -- create branch: `if not name or not keywords: 400`
      if falsy_str p.name ∨ p.keywords.getD [] = [] then (.badRequest, st1)
      else
        let t := task_from_dict
          ⟨p.name.getD "", uid, p.keywords.getD [], p.filters.getD [],
           p.platforms.getD [], p.report_mode.getD "current", p.schedule,
           p.expand_keywords.getD true, p.description⟩
        let ts := create_task st1 t freshId now
        (.created, ts.2)
    else
      -- update branch
      let tid := p.task_id.getD ""
      match get_task st1.tasks tid with
      | none => (.notFound, st1)
      | some t =>
        if t.user_id ≠ uid then (.forbidden, st1)
        else
          let r := update_task st1 tid (updates_of p) now
          if r.1 then (.okUpdated, r.2) else (.serverError, r.2)

/-! Part: Config transaction (`_execute_search_task`, lines 1474-1508/1616-1623)

`config.yaml` is loaded with a round-tripping YAML parser into a data tree,
backed up as `json.dumps(config_data)` — which keeps the parsed entries but
drops comments and formatting — and restored by dumping the JSON-decoded
backup back to the file.  We embed the file as a list of lines, each either
a comment/blank (formatting the parser discards) or a key/value entry; the
parsed data is the entry list. -/

/-- A parsed configuration value: a scalar or a list (the
`platforms.sources` subtree is flattened to the source ids, the only part
the code touches). -/
inductive CfgVal
  | str (s : String)
  | list (l : List String)
deriving DecidableEq

/-- One physical line of `config.yaml`. -/
inductive CfgLine
  | comment (text : String)
  | entry (key : String) (val : CfgVal)
deriving DecidableEq

/-- Embeds `_load_config` / `yaml` parse: comment and blank lines vanish, entries
survive.  (`json.dumps`/`json.loads` of the parsed dict is the identity on
this data and is modelled as such.) -/
def parseCfg (file : List CfgLine) : List (String × CfgVal) :=
  file.filterMap (fun l => match l with
    | .comment _ => none
    | .entry k v => some (k, v))

/-- Embeds `_save_config` / yaml dump of a parsed tree: entries only, canonical
formatting, no comments. -/
def dumpCfg (data : List (String × CfgVal)) : List CfgLine :=
  data.map (fun kv => .entry kv.1 kv.2)

/-- Set (or append) one key in the parsed tree, as the Python
`config_data["report"]["mode"] = report_mode` assignment does. -/
def setCfgVal (data : List (String × CfgVal)) (k : String) (v : CfgVal) :
    List (String × CfgVal) :=
  if data.any (fun kv => kv.1 = k) then
    data.map (fun kv => if kv.1 = k then (k, v) else kv)
  else data ++ [(k, v)]

/-- The platform narrowing: `sources = [s for s in sources if s["id"] in
platforms]`, applied to the `platforms.sources` entry. -/
def filterPlatformSources (data : List (String × CfgVal)) (platforms : List String) :
    List (String × CfgVal) :=
  data.map (fun kv => match kv with
    | ("platforms.sources", .list l) =>
        ("platforms.sources", .list (l.filter (fun pid => platforms.contains pid)))
    | other => other)

theorem parseCfg_dumpCfg (data : List (String × CfgVal)) :
    parseCfg (dumpCfg data) = data := by
  induction data with
  | nil => rfl
  | cons kv tl ih => simp [parseCfg, dumpCfg] at ih ⊢; exact ih

/-! Part: Frequency-words content (`_build_temp_frequency_content`) -/

/-- Embeds `_build_temp_frequency_content`: optional `[GLOBAL_FILTER]` section,
then `[WORD_GROUPS]` with one keyword per line, blank-line separated,
joined with newlines. -/
def build_temp_frequency_content (keywords filters : List String) : String :=
  let filterLines :=
    if filters.isEmpty then ([] : List String)
    else "[GLOBAL_FILTER]" :: filters ++ [""]
  let groupLines := "[WORD_GROUPS]" ::
    keywords.foldr (fun k acc => k :: "" :: acc) []
  String.intercalate "\n" (filterLines ++ groupLines)

/-! Part: Keyword expander (`_expand_keywords_with_ai`)

The AI call and JSON decode are summarized by an optional parsed response:
`none` models any raised error (network, timeout, malformed response), in
which case the original keywords are returned unchanged.  The per-seed cap
of 10 terms appears only in the prompt text; the code builds the regex from
every term the collaborator returns. -/

/-- One element of the response's `expanded` array. -/
structure SeedExpansion where
  original : String
  keywords : List String
deriving DecidableEq

/-- Embeds the pure-English test, a full re.match against the character
class of ASCII letters and whitespace (so the term must be non-empty and
contain only those). -/
def is_pure_english (kw : String) : Bool :=
  !kw.data.isEmpty && kw.data.all (fun c => c.isAlpha || c.isWhitespace)

/-- Embeds the replacement of each space in a term by the regex token for
whitespace runs (backslash-s-plus). -/
def replace_spaces (kw : String) : String :=
  ⟨kw.data.foldr (fun c acc => if c = ' ' then '\\' :: 's' :: '+' :: acc else c :: acc) []⟩

/-- The per-term regex fragment: pure-English terms get word boundaries and
whitespace-tolerant spaces, others pass through. -/
def escape_term (kw : String) : String :=
  if is_pure_english kw then "\\b" ++ replace_spaces kw ++ "\\b" else kw

/-- The `regex_parts` list built for one seed: one fragment per returned
term, no truncation. -/
def regex_parts (kws : List String) : List String :=
  kws.map escape_term

/-- The `/termA|termB/ => original` pattern built for one seed. -/
def build_pattern (original : String) (kws : List String) : String :=
  "/" ++ String.intercalate "|" (regex_parts kws) ++ "/ => " ++ original

/-- Embeds `_expand_keywords_with_ai`: on any error (`resp = none`) return the
input keywords unchanged; on a parsed response build one pattern per seed. -/
def expand_keywords_with_ai (keywords : List String)
    (resp : Option (List SeedExpansion)) : List String :=
  match resp with
  | none => keywords
  | some r => r.map (fun e => build_pattern e.original e.keywords)

/-! Part: Run coordinator (`_execute_search_task`)

State: the two config files (the frequency file may be absent), the
execution-history table, and a counter of delegated crawl/analyze
invocations (`analyzer.run()` — the externally observable heavy side
effect).  Environment: the AI response, whether the crawl raises, the
freshest HTML artifact found afterwards, and the persisted result rows of
today's news/RSS databases (which this code path never reads). -/

/-- A row of today's persisted `news_items` / `rss_items` databases. -/
structure PersistedRow where
  title : String
  source_id : String
  url : String
deriving DecidableEq

/-- An entry of the link list the search endpoints can return. -/
structure LinkItem where
  title : String
  url : String
  platform : String
  keyword : String
deriving DecidableEq

/-- Mutable process/file state the run touches. -/
structure SysState where
  freq : Option String
  config : List CfgLine
  executions : List ExecRow
  crawl_invocations : Nat
deriving DecidableEq

/-- External outcomes for one run. -/
structure RunEnv where
  ai_resp : Option (List SeedExpansion)
  crawl_ok : Bool
  html_found : Option String
  persisted_news : List PersistedRow
deriving DecidableEq

/-- The result dictionary `_execute_search_task` returns. -/
structure RunResult where
  success : Bool
  html_path : Option String
  links : Option (List LinkItem)
  detail : Option String
deriving DecidableEq

/-- Steps 4-7 of the run (the `try` body after the override, and the
`except` handler): crawl, locate the artifact, build the result, and record
history when a `task_id` is present. -/
def run_phase (env : RunEnv) (generate_html : Bool) (task_id : Option String) :
    RunResult × List ExecRow :=
  if env.crawl_ok then
    let base : RunResult := ⟨true, none, none, none⟩
    let r :=
      if generate_html then
        match env.html_found with
        | some p => { base with html_path := some p }
        | none => { base with success := false, detail := some "HTML生成失败" }
      else
        -- `# 返回链接列表（暂不实现，保持简单）`: the link list is left empty
        { base with links := some [] }
    (r, match task_id with
        | some tid => [⟨tid, if r.success then "success" else "failed", r.detail, r.html_path⟩]
        | none => [])
  else
    -- `except Exception`: the failure is reported, not re-raised
    let r : RunResult := ⟨false, none, none, some "搜索失败"⟩
    (r, match task_id with
        | some tid => [⟨tid, "failed", some "搜索失败", none⟩]
        | none => [])

/-- Embeds `_execute_search_task`.  Sequencing as in the source: expand, back up
and overwrite the frequency file, load/back up/override `config.yaml`, run
the crawl (`run_phase`), then the `finally` block: write the frequency
backup back only when one was taken, and restore `config.yaml` from the
JSON backup of its parsed data. -/
def execute_search_task (st : SysState) (keywords filters platforms : List String)
    (report_mode : String) (expand_keywords generate_html : Bool)
    (task_id : Option String) (env : RunEnv) : RunResult × SysState :=
  let expanded :=
    if expand_keywords then expand_keywords_with_ai keywords env.ai_resp else keywords
  -- `if FREQUENCY_FILE.exists(): freq_file_backup = ...` (else it stays None)
  let freq_backup := st.freq
  let temp_freq := build_temp_frequency_content expanded filters
  -- `config_backup = json.dumps(config_data)`: the parsed entries survive,
  -- comments and formatting do not
  let cfg_backup := parseCfg st.config
  let cfg_over := setCfgVal
    (if platforms = [] then cfg_backup else filterPlatformSources cfg_backup platforms)
    "report.mode" (.str report_mode)
  let pr := run_phase env generate_html task_id
  let st_mid : SysState :=
    { freq := some temp_freq
      config := dumpCfg cfg_over
      executions := st.executions ++ pr.2
      crawl_invocations := st.crawl_invocations + 1 }
  -- `finally`: restore
  (pr.1,
   { st_mid with
       freq := match freq_backup with
         | some b => some b
         | none => st_mid.freq
       config := dumpCfg cfg_backup })

/-! Part: HTTP endpoints around the run -/

/-- HTTP statuses the endpoints use. -/
inductive HttpStatus
  | ok200
  | badRequest400
  | conflict409
  | serverError500
  | badGateway502
deriving DecidableEq

/-- The JSON payload of `POST /api/search`. -/
structure SearchPayload where
  keywords : Option (List String)
  generate_html : Option Bool
  filters : List String
  platforms : List String
  report_mode : String
  expand_keywords : Bool

/-- Embeds `_handle_run` (`POST /api/run`): the only endpoint guarded by
`_RUN_LOCK.acquire(blocking=False)`.  Returns the status, whether the
subprocess pipeline was invoked, and the lock state afterwards. -/
def handle_run (lock_held : Bool) (subprocess_ok : Bool) :
    HttpStatus × Bool × Bool :=
  if lock_held then (.conflict409, false, true)
  else ((if subprocess_ok then .ok200 else .badGateway502), true, false)

/-- Embeds `_handle_search` (`POST /api/search`, the second — effective —
definition): validates the payload and delegates to
`execute_search_task`.  It never consults the run lock; the `lock_held`
argument records the lock state only to make that observable. -/
def handle_search (lock_held : Bool) (st : SysState) (p : SearchPayload)
    (env : RunEnv) : HttpStatus × Option RunResult × SysState :=
  match p.keywords with
  | none => (.badRequest400, none, st)
  | some kws =>
    if kws = [] then (.badRequest400, none, st)
    else
      match p.generate_html with
      | none => (.badRequest400, none, st)
      | some gh =>
        let r := execute_search_task st kws p.filters p.platforms p.report_mode
          p.expand_keywords gh none env
        ((if r.1.success then .ok200 else .serverError500), some r.1, r.2)

/-! Part: Result matcher/ranker (`_handle_smart_query`, lines 804-835) -/

/-- A matched item as assembled by the smart-query loop. -/
structure MatchedItem where
  title : String
  ranks : List Nat
  published_at : String
deriving DecidableEq

/-- Character-list comparison: Python's string `<` (code-point
lexicographic). -/
def charsCmp : List Char → List Char → Ordering
  | [], [] => .eq
  | [], _ :: _ => .lt
  | _ :: _, [] => .gt
  | a :: as', b :: bs' =>
    if a < b then .lt else if b < a then .gt else charsCmp as' bs'

/-- Python string comparison. -/
def pyStrCmp (a b : String) : Ordering := charsCmp a.data b.data

/-- Embeds `min(item["ranks"]) if item["ranks"] else 999` (the 999 arm is dead in
context but kept verbatim). -/
def min_ranks (l : List Nat) : Nat :=
  match l with
  | [] => 999
  | x :: xs => xs.foldl Nat.min x

/-- The tuple comparison induced by `sort_key`: ranked items are tagged 1
and compared by `(-len(ranks), min(ranks))`; feed items are tagged 2 and
compared by `(published_at, 0)` — ascending. -/
def sort_key_cmp (a b : MatchedItem) : Ordering :=
  match a.ranks.isEmpty, b.ranks.isEmpty with
  | false, false =>
    (compare (-(a.ranks.length : Int)) (-(b.ranks.length : Int))).then
      (compare (min_ranks a.ranks) (min_ranks b.ranks))
  | false, true => .lt
  | true, false => .gt
  | true, true => pyStrCmp a.published_at b.published_at

/-- Stable insertion into a sorted prefix: the new element goes after every
element that is `≤` it, as Python's stable sort places later input after
earlier equals. -/
def insert_le {α : Type} (le : α → α → Bool) (x : α) : List α → List α
  | [] => [x]
  | y :: ys => if le y x then y :: insert_le le x ys else x :: y :: ys

/-- A stable ascending sort (the semantics of `list.sort(key=...)`). -/
def py_stable_sort {α : Type} (le : α → α → Bool) (l : List α) : List α :=
  l.foldl (fun acc x => insert_le le x acc) []

/-- Embeds `matched_items.sort(key=sort_key)` followed by `[:100]`. -/
def smart_query_rank (items : List MatchedItem) : List MatchedItem :=
  (py_stable_sort (fun a b => sort_key_cmp a b ≠ .gt) items).take 100

/-! Part: Keyword matching (shadowed `_handle_search`, lines 1074-1094)

`title.lower()` containment of `kw.lower()` — kept here because the claims
compare the live behavior against it. -/

/-- Is `needle` a prefix of `hay`? -/
def list_starts_with : List Char → List Char → Bool
  | [], _ => true
  | _ :: _, [] => false
  | a :: as', b :: bs' => a = b && list_starts_with as' bs'

/-- Python's `needle in hay` substring test. -/
def contains_sub (needle : List Char) : List Char → Bool
  | [] => list_starts_with needle []
  | c :: t => list_starts_with needle (c :: t) || contains_sub needle t

/-- Embeds `str.lower()` (ASCII range, which is what `Char.toLower` implements and
what the test data exercises; CJK characters are fixed points in both). -/
def py_lower (s : String) : String := ⟨s.data.map Char.toLower⟩

/-- Embeds `for kw in expanded_keywords: if kw.lower() in title_lower: ...` —
the first matching keyword, if any. -/
def match_keyword (title : String) (kws : List String) : Option String :=
  kws.find? (fun kw => contains_sub (py_lower kw).data (py_lower title).data)

/-! Part: Helper lemmas shared by the claim theorems -/

/-- Embeds `get_or_create_user` either leaves the users table unchanged (the user
exists, or the insert hits a constraint) or appends exactly one row whose
username is the id. -/
theorem get_or_create_user_effect (users : List UserRow) (uid : String) :
    (get_or_create_user users uid).2 = users ∨
    (get_or_create_user users uid).2 = users ++ [⟨uid, uid, none⟩] := by
  simp only [get_or_create_user, create_user]
  cases h : get_user users uid with
  | some u => left; rfl
  | none =>
    by_cases ha : (users.any fun u => decide (u.id = uid ∨ u.username = uid)) = true
    · left; rw [if_pos ha]
    · right; rw [if_neg ha]

/-! Part: Claim theorems -/

/-- C9: for every task, the list-valued fields `keywords`, `filters` and
`platforms` round-trip losslessly across the store/API boundary:
`to_dict` of `from_dict` recovers each native sequence exactly, order and
duplicates preserved. -/
theorem c9_list_roundtrip (d : TaskApiDict) :
    task_to_dict_lists (task_from_dict d) =
      ⟨some d.keywords, some d.filters, some d.platforms⟩ := by
  simp [task_to_dict_lists, task_from_dict, json_roundtrip]

/-- C10: `get_or_create_user` can return no user at all: the requested id
`"bob"` is not stored, but user `"u1"` already holds username `"bob"`, so
the insert hits the username uniqueness constraint and the follow-up lookup
by id finds nothing. -/
theorem c10_get_or_create_none :
    (get_or_create_user [⟨"u1", "bob", none⟩] "bob").1 = none := by decide

/-- C3 (failing input): two feed items (empty rank sequences) with publish
timestamps `2024-01-01` and `2024-01-02`; the ranker emits the OLDER one
first — the ascending sort on `(2, published_at, 0)` orders feed items
oldest-first, contradicting the claim (and the code's own comment that
newer feed items sort first). -/
theorem c3_feed_order_bug_eval :
    smart_query_rank
      [⟨"newer", [], "2024-01-02 08:00"⟩, ⟨"older", [], "2024-01-01 08:00"⟩] =
      [⟨"older", [], "2024-01-01 08:00"⟩, ⟨"newer", [], "2024-01-02 08:00"⟩] := by
  decide

/-- C4: if the keyword-expansion step raises (`resp = none`), the expansion
degrades to identity — the literal seed keywords are used — and the run
still reports `success = true` when the delegated crawl/analyze succeeds
(crawl ok, artifact found). -/
theorem c4_expander_fallback (st : SysState) (kws f pl : List String)
    (mode : String) (gh : Bool) (tid : Option String) (p : String)
    (news : List PersistedRow) :
    expand_keywords_with_ai kws none = kws ∧
    (execute_search_task st kws f pl mode true gh tid
        ⟨none, true, some p, news⟩).1.success = true := by
  refine ⟨rfl, ?_⟩
  cases gh <;> simp [execute_search_task, run_phase]

/-- C1 (counterexample): a run on a state where the frequency file does not
exist and `config.yaml` carries a comment line.  After the run the
frequency file exists (holding the override content — no restore was
taken), and `config.yaml` lost its comment: neither resource's content
equals its content from immediately before the override. -/
theorem c1_restore_not_byte_exact_cex :
    ((execute_search_task
        ⟨none, [.comment "# baseline comment", .entry "report.mode" (.str "current")], [], 0⟩
        ["k"] [] [] "current" false true none
        ⟨none, true, some "out.html", []⟩).2.freq ≠ (none : Option String)) ∧
    ((execute_search_task
        ⟨none, [.comment "# baseline comment", .entry "report.mode" (.str "current")], [], 0⟩
        ["k"] [] [] "current" false true none
        ⟨none, true, some "out.html", []⟩).2.config ≠
      [.comment "# baseline comment", .entry "report.mode" (.str "current")]) := by
  decide

/-- C1 (amended): on every exit path, if the frequency file existed before
the override then its exact content is restored; `config.yaml` is restored
to the dump of its parsed snapshot — the parsed entries are preserved,
though not necessarily the original bytes (comments/formatting). -/
theorem c1_restore_amended (st : SysState) (kws f pl : List String)
    (mode : String) (ek gh : Bool) (tid : Option String) (env : RunEnv)
    (b : String) (h : st.freq = some b) :
    (execute_search_task st kws f pl mode ek gh tid env).2.freq = some b ∧
    parseCfg (execute_search_task st kws f pl mode ek gh tid env).2.config =
      parseCfg st.config := by
  simp [execute_search_task, h, parseCfg_dumpCfg]

/-- C1 witness: a concrete state whose frequency file holds `"orig freq"`
is restored to exactly that content, with the parsed config preserved. -/
theorem c1_restore_amended_witness :
    (execute_search_task ⟨some "orig freq", [], [], 0⟩ ["k"] [] [] "current"
        false true none ⟨none, true, none, []⟩).2.freq = some "orig freq" ∧
    parseCfg (execute_search_task ⟨some "orig freq", [], [], 0⟩ ["k"] [] [] "current"
        false true none ⟨none, true, none, []⟩).2.config =
      parseCfg ([] : List CfgLine) :=
  c1_restore_amended ⟨some "orig freq", [], [], 0⟩ ["k"] [] [] "current"
    false true none ⟨none, true, none, []⟩ "orig freq" rfl

/-- C2 (counterexample): with a run already in flight (lock held), an ad
hoc Execute via `/api/search` is NOT rejected with Conflict: it returns
200 and invokes the delegated crawl (an observable side effect). -/
theorem c2_no_conflict_on_adhoc_cex :
    (handle_search true ⟨some "fw", [], [], 0⟩
        ⟨some ["k"], some true, [], [], "current", false⟩
        ⟨none, true, some "out.html", []⟩).1 = HttpStatus.ok200 ∧
    (handle_search true ⟨some "fw", [], [], 0⟩
        ⟨some ["k"], some true, [], [], "current", false⟩
        ⟨none, true, some "out.html", []⟩).2.2.crawl_invocations = 1 := by
  decide

/-- C2 (amended): only `/api/run` enforces the exclusivity slot — while it
is held a second `/api/run` is rejected immediately with Conflict, without
running the pipeline and leaving the lock as it was; the ad hoc search
endpoint never consults the slot (its behavior is identical whether or not
the lock is held). -/
theorem c2_exclusivity_amended (ok lh : Bool) (st : SysState)
    (p : SearchPayload) (env : RunEnv) :
    handle_run true ok = (HttpStatus.conflict409, false, true) ∧
    handle_search lh st p env = handle_search false st p env :=
  ⟨rfl, rfl⟩

/-- C5 (counterexample): `CreateTask` with empty keywords on an empty store
returns the validation error — but the store HAS changed: the acting user
was get-or-created before validation. -/
theorem c5_create_side_effect_cex :
    (handle_tasks_post ⟨[], []⟩
        ⟨some "u9", none, some "watch", some [], none, none, none, none, none,
         none, none⟩
        "2024-01-01 00:00:00" "task_fresh01").1 = TasksResp.badRequest ∧
    (handle_tasks_post ⟨[], []⟩
        ⟨some "u9", none, some "watch", some [], none, none, none, none, none,
         none, none⟩
        "2024-01-01 00:00:00" "task_fresh01").2.users ≠ ([] : List UserRow) := by
  decide

/-- C5 (amended): `CreateTask` with empty keywords (or a missing name)
returns the validation error and persists no task row; the only store
mutation is the lazy get-or-create of the acting user's row, which runs
before validation. -/
theorem c5_create_amended (st : Store) (uid : String) (pn : Option String)
    (pk pf pp : Option (List String)) (pr ps : Option String)
    (pe : Option Bool) (pst pd : Option String) (now fid : String)
    (hne : ¬ uid = "")
    (hv : falsy_str pn = true ∨ pk.getD [] = []) :
    (handle_tasks_post st ⟨some uid, none, pn, pk, pf, pp, pr, ps, pe, pst, pd⟩
        now fid).1 = TasksResp.badRequest ∧
    (handle_tasks_post st ⟨some uid, none, pn, pk, pf, pp, pr, ps, pe, pst, pd⟩
        now fid).2.tasks = st.tasks ∧
    ((handle_tasks_post st ⟨some uid, none, pn, pk, pf, pp, pr, ps, pe, pst, pd⟩
        now fid).2.users = st.users ∨
      (handle_tasks_post st ⟨some uid, none, pn, pk, pf, pp, pr, ps, pe, pst, pd⟩
        now fid).2.users = st.users ++ [⟨uid, uid, none⟩]) := by
  have hg := get_or_create_user_effect st.users uid
  simp only [falsy_str] at hv
  refine ⟨?_, ?_, ?_⟩
  · simp [handle_tasks_post, falsy_str, hne, if_pos hv]
  · simp [handle_tasks_post, falsy_str, hne, if_pos hv]
  · simpa [handle_tasks_post, falsy_str, hne, if_pos hv] using hg

/-- C5 witness: the amended claim at a concrete empty store and an
empty-keywords create request. -/
theorem c5_create_amended_witness :
    (handle_tasks_post ⟨[], []⟩
        ⟨some "u9", none, some "watch", some [], none, none, none, none, none,
         none, none⟩ "now" "fid").1 = TasksResp.badRequest ∧
    (handle_tasks_post ⟨[], []⟩
        ⟨some "u9", none, some "watch", some [], none, none, none, none, none,
         none, none⟩ "now" "fid").2.tasks = (⟨[], []⟩ : Store).tasks ∧
    ((handle_tasks_post ⟨[], []⟩
        ⟨some "u9", none, some "watch", some [], none, none, none, none, none,
         none, none⟩ "now" "fid").2.users = (⟨[], []⟩ : Store).users ∨
      (handle_tasks_post ⟨[], []⟩
        ⟨some "u9", none, some "watch", some [], none, none, none, none, none,
         none, none⟩ "now" "fid").2.users =
        (⟨[], []⟩ : Store).users ++ [⟨"u9", "u9", none⟩]) :=
  c5_create_amended ⟨[], []⟩ "u9" (some "watch") (some []) none none none none
    none none none "now" "fid" (by decide) (Or.inr rfl)

/-- C6 (counterexample): a non-owner update attempt returns Forbidden —
but a side effect has already occurred: the acting user `"u2"` was
get-or-created before the ownership check, so the users table changed. -/
theorem c6_update_side_effect_cex :
    (handle_tasks_post
        ⟨[⟨"u1", "u1", none⟩],
         [⟨"t1", "watch", "u1", "[\"k\"]", none, none, "current", none, true,
           "active", none, none, none⟩]⟩
        ⟨some "u2", some "t1", some "renamed", none, none, none, none, none,
         none, none, none⟩
        "now" "fid").1 = TasksResp.forbidden ∧
    (handle_tasks_post
        ⟨[⟨"u1", "u1", none⟩],
         [⟨"t1", "watch", "u1", "[\"k\"]", none, none, "current", none, true,
           "active", none, none, none⟩]⟩
        ⟨some "u2", some "t1", some "renamed", none, none, none, none, none,
         none, none, none⟩
        "now" "fid").2.users ≠ [⟨"u1", "u1", none⟩] := by
  decide

/-- C6 (amended): `UpdateTask` by a user other than the task's owner
returns Forbidden with the tasks table — hence every stored field of the
task — unchanged; the only store mutation preceding the rejection is the
lazy get-or-create of the acting user's row. -/
theorem c6_forbidden_amended (st : Store) (uid tid : String) (t : TaskRow)
    (pn : Option String) (pk pf pp : Option (List String))
    (pr ps : Option String) (pe : Option Bool) (pst pd : Option String)
    (now fid : String)
    (hne : ¬ uid = "") (htne : ¬ tid = "")
    (hfind : get_task st.tasks tid = some t)
    (hown : ¬ t.user_id = uid) :
    (handle_tasks_post st ⟨some uid, some tid, pn, pk, pf, pp, pr, ps, pe, pst, pd⟩
        now fid).1 = TasksResp.forbidden ∧
    (handle_tasks_post st ⟨some uid, some tid, pn, pk, pf, pp, pr, ps, pe, pst, pd⟩
        now fid).2.tasks = st.tasks ∧
    ((handle_tasks_post st ⟨some uid, some tid, pn, pk, pf, pp, pr, ps, pe, pst, pd⟩
        now fid).2.users = st.users ∨
      (handle_tasks_post st ⟨some uid, some tid, pn, pk, pf, pp, pr, ps, pe, pst, pd⟩
        now fid).2.users = st.users ++ [⟨uid, uid, none⟩]) := by
  have hg := get_or_create_user_effect st.users uid
  refine ⟨?_, ?_, ?_⟩
  · simp [handle_tasks_post, falsy_str, hne, htne, hfind, hown]
  · simp [handle_tasks_post, falsy_str, hne, htne, hfind, hown]
  · simpa [handle_tasks_post, falsy_str, hne, htne, hfind, hown] using hg

/-- C6 witness: the amended claim at a concrete store with task `"t1"`
owned by `"u1"` and acting user `"u2"`. -/
theorem c6_forbidden_amended_witness :
    (handle_tasks_post
        ⟨[⟨"u1", "u1", none⟩],
         [⟨"t1", "watch", "u1", "[\"k\"]", none, none, "current", none, true,
           "active", none, none, none⟩]⟩
        ⟨some "u2", some "t1", some "renamed", none, none, none, none, none,
         none, none, none⟩ "now" "fid").1 = TasksResp.forbidden ∧
    (handle_tasks_post
        ⟨[⟨"u1", "u1", none⟩],
         [⟨"t1", "watch", "u1", "[\"k\"]", none, none, "current", none, true,
           "active", none, none, none⟩]⟩
        ⟨some "u2", some "t1", some "renamed", none, none, none, none, none,
         none, none, none⟩ "now" "fid").2.tasks =
      [⟨"t1", "watch", "u1", "[\"k\"]", none, none, "current", none, true,
        "active", none, none, none⟩] ∧
    ((handle_tasks_post
        ⟨[⟨"u1", "u1", none⟩],
         [⟨"t1", "watch", "u1", "[\"k\"]", none, none, "current", none, true,
           "active", none, none, none⟩]⟩
        ⟨some "u2", some "t1", some "renamed", none, none, none, none, none,
         none, none, none⟩ "now" "fid").2.users = [⟨"u1", "u1", none⟩] ∨
      (handle_tasks_post
        ⟨[⟨"u1", "u1", none⟩],
         [⟨"t1", "watch", "u1", "[\"k\"]", none, none, "current", none, true,
           "active", none, none, none⟩]⟩
        ⟨some "u2", some "t1", some "renamed", none, none, none, none, none,
         none, none, none⟩ "now" "fid").2.users =
        [⟨"u1", "u1", none⟩] ++ [⟨"u2", "u2", none⟩]) :=
  c6_forbidden_amended
    ⟨[⟨"u1", "u1", none⟩],
     [⟨"t1", "watch", "u1", "[\"k\"]", none, none, "current", none, true,
       "active", none, none, none⟩]⟩
    "u2" "t1"
    ⟨"t1", "watch", "u1", "[\"k\"]", none, none, "current", none, true,
      "active", none, none, none⟩
    (some "renamed") none none none none none none none none "now" "fid"
    (by decide) (by decide) (by decide) (by decide)

/-- C7 (counterexample): a link-list run (`generate_html = false`) while a
persisted row titled `"apple event"` — which matches the keyword
`"apple"` — is available: the run returns an EMPTY link list, querying
nothing and ranking nothing. -/
theorem c7_linklist_empty_cex :
    (execute_search_task ⟨some "fw", [], [], 0⟩ ["apple"] [] [] "current"
        false false none
        ⟨none, true, some "out.html",
         [⟨"apple event", "news", "https://example.com/1"⟩]⟩).1.links = some [] ∧
    match_keyword "apple event" ["apple"] = some "apple" := by
  decide

/-- C7 (amended): in the link-list variant the coordinator returns an empty
matched-items list and reports success; it queries no persisted result set
and applies no matcher/ranker (the result is independent of the persisted
rows). -/
theorem c7_linklist_amended (st : SysState) (kws f pl : List String)
    (mode : String) (ek : Bool) (tid : Option String)
    (ai : Option (List SeedExpansion)) (hp : Option String)
    (news : List PersistedRow) :
    (execute_search_task st kws f pl mode ek false tid
        ⟨ai, true, hp, news⟩).1.links = some [] ∧
    (execute_search_task st kws f pl mode ek false tid
        ⟨ai, true, hp, news⟩).1.success = true := by
  simp [execute_search_task, run_phase]

/-- C8 (counterexample): a parsed collaborator response carrying 11 terms
for one seed: the expander builds the pattern from all 11 — more than the
claimed cap of 10. -/
theorem c8_cap_not_enforced_cex :
    expand_keywords_with_ai ["x"]
        (some [⟨"x", ["a1", "a2", "a3", "a4", "a5", "a6", "a7", "a8", "a9",
                      "a10", "a11"]⟩]) =
      ["/a1|a2|a3|a4|a5|a6|a7|a8|a9|a10|a11/ => x"] ∧
    10 < (regex_parts ["a1", "a2", "a3", "a4", "a5", "a6", "a7", "a8", "a9",
                       "a10", "a11"]).length := by
  decide

/-- C8 (amended): the per-seed cap of 10 is requested only in the prompt;
the code truncates nothing — one pattern per seed in the response, and one
regex fragment per returned term. -/
theorem c8_no_truncation_amended (kws ks : List String)
    (resp : List SeedExpansion) :
    (expand_keywords_with_ai kws (some resp)).length = resp.length ∧
    (regex_parts ks).length = ks.length := by
  exact ⟨by simp [expand_keywords_with_ai], by simp [regex_parts]⟩

end TRN
